import Mathlib

/-!
# cli_wiki: the navigation state machine and its API formatting

A shallow embedding of `src/main.go`: the Bubble Tea `Model`, its `Update` and `View`
methods, and the two list-building loops of `searchWikipedia` and `getLanguageLinks`.

Modelling conventions.
* A Go `string` is a Lean `String`; where Go works on bytes (`url.PathEscape`) the
  string is read through its UTF-8 bytes, as Go stores it.
* Go `int` is `Int`; the only arithmetic is `selectedResult ± 1` under a guard that keeps
  it between `0` and `len(results)`, so no overflow can happen.
* A Go `error` is represented by its `Error()` text.
* The HTTP exchange together with the JSON decoding is an environment `Env`: for the
  language-links call it maps the URL handed to `http.NewRequest` to either the decoded
  records or the error; for the search call it maps the request arguments to either the
  decoded pages or the error.
* A run-time panic (slice index out of range) is the result `none`.
-/

namespace CliWiki

/-! ## Go `net/url`: `PathEscape` -/

/-- The UTF-8 bytes of one character, which is how a Go string stores it. -/
def utf8Bytes (c : Char) : List Nat :=
  let v := c.toNat
  if v < 0x80 then [v]
  else if v < 0x800 then [0xC0 + v / 64, 0x80 + v % 64]
  else if v < 0x10000 then [0xE0 + v / 4096, 0x80 + (v / 64) % 64, 0x80 + v % 64]
  else [0xF0 + v / 262144, 0x80 + (v / 4096) % 64, 0x80 + (v / 64) % 64, 0x80 + v % 64]

/-- The bytes of a Go string. -/
def bytes (s : String) : List Nat :=
  s.data.flatMap utf8Bytes

/-- Go `net/url.shouldEscape(c, encodePathSegment)`: alphanumerics and the marks
`- _ . ~` are kept, of the reserved characters `$ & + , / : ; = ? @` only
`/ ; , ?` are escaped, and every other byte is escaped. -/
def shouldEscape (c : Nat) : Bool :=
  if (97 ≤ c ∧ c ≤ 122) ∨ (65 ≤ c ∧ c ≤ 90) ∨ (48 ≤ c ∧ c ≤ 57) then false
  else if c = 45 ∨ c = 95 ∨ c = 46 ∨ c = 126 then false
  else if c = 36 ∨ c = 38 ∨ c = 43 ∨ c = 44 ∨ c = 47 ∨ c = 58 ∨ c = 59 ∨ c = 61
      ∨ c = 63 ∨ c = 64 then
    decide (c = 47 ∨ c = 59 ∨ c = 44 ∨ c = 63)
  else true

/-- Go `upperhex[n]` with `upperhex = "0123456789ABCDEF"`. -/
def upperhex (n : Nat) : Char :=
  "0123456789ABCDEF".data.getD n '0'

/-- One byte of the output of Go `net/url.escape` in path-segment mode. -/
def escapeByte (c : Nat) : List Char :=
  if shouldEscape c then ['%', upperhex (c / 16), upperhex (c % 16)]
  else [Char.ofNat c]

/-- Go `url.PathEscape`. -/
def PathEscape (s : String) : String :=
  ⟨(bytes s).flatMap escapeByte⟩

/-! ## Data model -/

/-- One element of `SearchResponse.Pages`. -/
structure Page where
  Title : String
  Key : String
  Description : String
  ThumbnailURL : String
  Excerpt : String
deriving DecidableEq, Repr

/-- One element of `LanguageLinksResponse`. -/
structure LanguageLink where
  Code : String
  Name : String
  Key : String
deriving DecidableEq, Repr

/-- The outcome of a Go call returning `(value, error)`. -/
inductive Result (α : Type) where
  | ok (v : α)
  | err (e : String)
deriving DecidableEq, Repr

/-- The network: request, transport and JSON decoding of the two calls. -/
structure Env where
  links : String → Result (List LanguageLink)
  search : String → String → Int → Result (List Page)

/-- The Bubble Tea model of `main.go`. -/
structure Model where
  query : String
  language : String
  results : List String
  selectedResult : Int
  languageLinks : List String
  viewMode : String
deriving DecidableEq, Repr

/-- A `tea.Msg`: a key message, given by its `String()`, or any other message. -/
inductive Msg where
  | KeyMsg (key : String)
  | other
deriving DecidableEq, Repr

/-- A `tea.Cmd` as returned by `Update`: `nil` or `tea.Quit`. -/
inductive Cmd where
  | nil
  | Quit
deriving DecidableEq, Repr

/-! ## API functions -/

/-- The display string of one page, the body of the loop of `searchWikipedia`. -/
def pageLine (page : Page) : String :=
  let desc := if page.Description = "" then "No description available" else page.Description
  page.Title ++ " - " ++ desc

/-- The `searchWikipedia` function: the decoded pages are appended one by one. -/
def searchWikipedia (env : Env) (query language : String) (limit : Int) :
    Result (List String) :=
  match env.search language query limit with
  | .err e => .err e
  | .ok pages => .ok (pages.foldl (fun titles page => titles ++ [pageLine page]) [])

/-- The URL that `getLanguageLinks` builds and requests. -/
def linksURL (title language : String) : String :=
  "https://api.wikimedia.org/core/v1/wikipedia/" ++ language ++ "/page/"
    ++ PathEscape title ++ "/links/language"

/-- The display string of one language link, the body of the loop of
`getLanguageLinks`. -/
def linkLine (lang : LanguageLink) : String :=
  lang.Name ++ ": https://" ++ lang.Code ++ ".wikipedia.org/wiki/" ++ PathEscape lang.Key

/-- The `getLanguageLinks` function. -/
def getLanguageLinks (env : Env) (title language : String) : Result (List String) :=
  match env.links (linksURL title language) with
  | .err e => .err e
  | .ok result => .ok (result.foldl (fun links lang => links ++ [linkLine lang]) [])

/-! ## The model's methods -/

/-- The `initialModel` function. -/
def initialModel (query language : String) : Model :=
  { query := query, language := language, results := [], selectedResult := 0,
    languageLinks := [], viewMode := "search" }

/-- Go slice indexing `xs[i]`; `none` is the index-out-of-range panic. -/
def index (xs : List String) (i : Int) : Option String :=
  if 0 ≤ i ∧ i < xs.length then xs.get? i.toNat else none

/-- The `Model.Update` method; `none` is a run-time panic. -/
def Update (env : Env) (m : Model) : Msg → Option (Model × Cmd)
  | .other => some (m, .nil)
  | .KeyMsg key =>
    if key = "q" ∨ key = "ctrl+c" then some (m, .Quit)
    else if key = "up" then
      if m.selectedResult > 0 then
        some ({ m with selectedResult := m.selectedResult - 1 }, .nil)
      else some (m, .nil)
    else if key = "down" then
      if m.selectedResult < (m.results.length : Int) - 1 then
        some ({ m with selectedResult := m.selectedResult + 1 }, .nil)
      else some (m, .nil)
    else if key = "enter" then
      if m.results.length > 0 ∧ m.viewMode = "search" then
        match index m.results m.selectedResult with
        | none => none
        | some r =>
          match getLanguageLinks env (PathEscape r) m.language with
          | .err e => some ({ m with results := ["Error: " ++ e] }, .nil)
          | .ok links =>
            some ({ m with languageLinks := links, viewMode := "languages" }, .nil)
      else some (m, .nil)
    else if key = "esc" then
      if m.viewMode = "languages" then some ({ m with viewMode := "search" }, .nil)
      else some (m, .nil)
    else some (m, .nil)

/-- The loop over `m.results` in `Model.View`: `i` is the index of the head of the
remaining results and `s` the text built so far. -/
def viewResults (selectedResult : Int) : Nat → List String → String → String
  | _, [], s => s
  | i, result :: rest, s =>
    let cursor := if (i : Int) = selectedResult then ">" else " "
    viewResults selectedResult (i + 1) rest (s ++ (cursor ++ " " ++ result ++ "\n"))

/-- The `Model.View` method. -/
def View (m : Model) : String :=
  let s := "Wikipedia Search (" ++ m.language ++ "): " ++ m.query ++ "\n\n"
  if m.viewMode = "search" then
    viewResults m.selectedResult 0 m.results s ++ "\n↑/↓: navigate • Enter: select • q: quit"
  else
    m.languageLinks.foldl (fun s link => s ++ ("• " ++ link ++ "\n"))
        (s ++ "Available in other languages:\n\n")
      ++ "\nEsc: back to results • q: quit"

/-- The state that `main` hands to the event loop: `initialModel` with the search
results stored in it. -/
def startModel (query language : String) (results : List String) : Model :=
  { initialModel query language with results := results }

/-- The event loop: each event is a message together with the network it meets. The
loop ends on `tea.Quit`, and a panic ends it with `none`. -/
def runEvents : List (Env × Msg) → Model → Option Model
  | [], m => some m
  | (env, msg) :: rest, m =>
    match Update env m msg with
    | none => none
    | some (m', .Quit) => some m'
    | some (m', .nil) => runEvents rest m'


/-- The unreserved characters of a URL: letters, digits and the marks `- _ . ~`. -/
def unreserved (c : Char) : Prop :=
  (97 ≤ c.toNat ∧ c.toNat ≤ 122) ∨ (65 ≤ c.toNat ∧ c.toNat ≤ 90)
    ∨ (48 ≤ c.toNat ∧ c.toNat ≤ 57)
    ∨ c = '-' ∨ c = '_' ∨ c = '.' ∨ c = '~'

instance (c : Char) : Decidable (unreserved c) := by
  unfold unreserved; infer_instance

/-! ## Concrete networks and states used to run the model -/

/-- The text of the Go error of a GET request that cannot reach the server. -/
def transportError (url : String) : String :=
  "Get \"" ++ url ++ "\": dial tcp: lookup api.wikimedia.org: no such host"

/-- Two decoded search pages, the second without a description. -/
def catPages : List Page :=
  [⟨"Cat", "Cat", "Small domesticated carnivorous mammal", "", ""⟩,
   ⟨"Catalonia", "Catalonia", "", "", ""⟩]

/-- The display list of `catPages`. -/
def catResults : List String :=
  ["Cat - Small domesticated carnivorous mammal", "Catalonia - No description available"]

/-- A network that is down: every call fails in the transport. -/
def envDown : Env :=
  { links := fun url => .err (transportError url),
    search := fun _ _ _ => .err "dial tcp: lookup api.wikimedia.org: no such host" }

/-- A network whose search answers `catPages` and whose links endpoint answers the one
record `(fr, French, Chat)`. -/
def envFrench : Env :=
  { links := fun _ => .ok [⟨"fr", "French", "Chat"⟩],
    search := fun _ _ _ => .ok catPages }

/-- The state at the start of the session for the query `Cat`. -/
def catModel : Model :=
  startModel "Cat" "en" catResults

/-! ## Auxiliary lemmas -/

/-- Appending one formatted element per iteration builds the mapped list. -/
theorem foldl_append_singleton {α β : Type} (f : α → β) (xs : List α) (acc : List β) :
    xs.foldl (fun out x => out ++ [f x]) acc = acc ++ xs.map f := by
  induction xs generalizing acc with
  | nil => simp
  | cons x xs ih => simp [ih]

/-- Joining pieces of text after a starting text. -/
theorem foldl_append_start (xs : List String) (s : String) :
    xs.foldl (fun out x => out ++ x) s = s ++ String.join xs := by
  induction xs generalizing s with
  | nil => simp [String.join]
  | cons x xs ih =>
    have h := ih (s ++ x)
    have h' := ih ("" ++ x)
    simp only [String.join, List.foldl_cons] at h h' ⊢
    rw [h, h', String.append_assoc, String.empty_append]

/-- Appending one piece of text per iteration builds the concatenation of the pieces. -/
theorem foldl_append_text {α : Type} (f : α → String) (xs : List α) (s : String) :
    xs.foldl (fun out x => out ++ f x) s = s ++ String.join (xs.map f) := by
  rw [← foldl_append_start, List.foldl_map]

/-- Every ASCII character is a single byte. -/
theorem utf8Bytes_ascii (c : Char) (h : c.toNat < 128) : utf8Bytes c = [c.toNat] := by
  simp [utf8Bytes, h]

/-- An unreserved character is escaped to itself. -/
theorem escape_unreserved (c : Char) (h : unreserved c) :
    (utf8Bytes c).flatMap escapeByte = [c] := by
  have hlt : c.toNat < 128 := by
    rcases h with h | h | h | h | h | h | h
    · omega
    · omega
    · omega
    all_goals subst h; decide
  have hs : shouldEscape c.toNat = false := by
    rcases h with h | h | h | h | h | h | h
    · simp [shouldEscape, h]
    · simp [shouldEscape, h]
    · simp [shouldEscape, h]
    all_goals subst h; decide
  simp [utf8Bytes_ascii c hlt, escapeByte, hs]

/-- A list of unreserved characters is escaped to itself. -/
theorem escape_unreserved_list (cs : List Char) (h : ∀ c ∈ cs, unreserved c) :
    (cs.flatMap utf8Bytes).flatMap escapeByte = cs := by
  induction cs with
  | nil => rfl
  | cons c cs ih =>
    simp only [List.flatMap_cons, List.flatMap_append]
    rw [escape_unreserved c (h c (by simp)), ih (fun d hd => h d (by simp [hd]))]
    rfl

/-- The function `PathEscape` leaves a text of unreserved characters as it is. -/
theorem PathEscape_unreserved (s : String) (h : ∀ c ∈ s.data, unreserved c) :
    PathEscape s = s := by
  obtain ⟨cs⟩ := s
  simp only [PathEscape, bytes]
  rw [escape_unreserved_list cs h]

/-- The key `up` moves the selection to `max (i - 1) 0` and changes nothing else. -/
theorem Update_up (env : Env) (m : Model) (hlo : 0 ≤ m.selectedResult) :
    Update env m (.KeyMsg "up")
      = some ({ m with selectedResult := max (m.selectedResult - 1) 0 }, .nil) := by
  by_cases h : m.selectedResult > 0
  · have hmax : max (m.selectedResult - 1) 0 = m.selectedResult - 1 := by omega
    simp [Update, h, hmax]
  · have hmax : max (m.selectedResult - 1) 0 = m.selectedResult := by omega
    simp [Update, h, hmax]

/-- The key `down` moves the selection to `min (i + 1) (len - 1)` and changes nothing
else. -/
theorem Update_down (env : Env) (m : Model)
    (hhi : m.selectedResult ≤ (m.results.length : Int) - 1) :
    Update env m (.KeyMsg "down")
      = some ({ m with
          selectedResult := min (m.selectedResult + 1) ((m.results.length : Int) - 1) },
        .nil) := by
  by_cases h : m.selectedResult < (m.results.length : Int) - 1
  · have hmin : min (m.selectedResult + 1) ((m.results.length : Int) - 1)
        = m.selectedResult + 1 := by omega
    simp [Update, h, hmin]
  · have hmin : min (m.selectedResult + 1) ((m.results.length : Int) - 1)
        = m.selectedResult := by omega
    simp [Update, h, hmin]

/-- A run of `up` and `down` keys never panics or quits, keeps the results and keeps
the selection between `0` and `len - 1`. -/
theorem runEvents_up_down (evs : List (Env × Msg)) (m : Model)
    (hlo : 0 ≤ m.selectedResult) (hhi : m.selectedResult ≤ (m.results.length : Int) - 1)
    (hkeys : ∀ e ∈ evs, e.2 = Msg.KeyMsg "up" ∨ e.2 = Msg.KeyMsg "down") :
    ∃ m', runEvents evs m = some m' ∧ m'.results = m.results ∧ m'.viewMode = m.viewMode
      ∧ 0 ≤ m'.selectedResult ∧ m'.selectedResult ≤ (m.results.length : Int) - 1 := by
  induction evs generalizing m with
  | nil => exact ⟨m, rfl, rfl, rfl, hlo, hhi⟩
  | cons e evs ih =>
    obtain ⟨env, msg⟩ := e
    have hrest : ∀ e ∈ evs, e.2 = Msg.KeyMsg "up" ∨ e.2 = Msg.KeyMsg "down" :=
      fun e he => hkeys e (by simp [he])
    rcases hkeys (env, msg) (by simp) with h | h
    · simp only at h
      subst h
      obtain ⟨m', h1, h2, h3, h4, h5⟩ :=
        ih { m with selectedResult := max (m.selectedResult - 1) 0 }
          (by simp) (by simp only; omega) hrest
      exact ⟨m', by simp only [runEvents, Update_up env m hlo]; exact h1, h2, h3, h4, h5⟩
    · simp only at h
      subst h
      obtain ⟨m', h1, h2, h3, h4, h5⟩ :=
        ih { m with
            selectedResult := min (m.selectedResult + 1) ((m.results.length : Int) - 1) }
          (by simp only; omega) (by simp only; omega) hrest
      exact ⟨m', by simp only [runEvents, Update_down env m hhi]; exact h1, h2, h3, h4, h5⟩

/-- The two view modes are different texts. -/
theorem search_ne_languages : ("search" : String) ≠ "languages" := by decide

/-- What `Update` does to the view mode: it keeps it, or Enter in Search view with a
selected entry and a successful fetch sets it to Languages, or Esc in Languages view
sets it to Search. -/
theorem Update_viewMode (env : Env) (m : Model) (msg : Msg) (m' : Model) (cmd : Cmd)
    (h : Update env m msg = some (m', cmd)) :
    m'.viewMode = m.viewMode
    ∨ (msg = .KeyMsg "enter" ∧ m.viewMode = "search" ∧ m.results ≠ []
        ∧ (∃ r links, index m.results m.selectedResult = some r ∧
            getLanguageLinks env (PathEscape r) m.language = .ok links)
        ∧ m'.viewMode = "languages")
    ∨ (msg = .KeyMsg "esc" ∧ m.viewMode = "languages" ∧ m'.viewMode = "search") := by
  cases msg with
  | other =>
    simp only [Update, Option.some.injEq, Prod.mk.injEq] at h
    obtain ⟨rfl, -⟩ := h
    exact Or.inl rfl
  | KeyMsg key =>
    unfold Update at h
    simp only at h
    split_ifs at h with h1 h2 h3 h4 h5 h6 h7 h8 h9
    case pos | pos | neg | pos | neg | neg | neg | neg =>
      simp only [Option.some.injEq, Prod.mk.injEq] at h
      obtain ⟨rfl, -⟩ := h
      exact Or.inl rfl
    · -- Enter in Search view with results
      subst h6
      cases hi : index m.results m.selectedResult with
      | none => simp [hi] at h
      | some r =>
        cases hg : getLanguageLinks env (PathEscape r) m.language with
        | err e =>
          simp only [hi, hg, Option.some.injEq, Prod.mk.injEq] at h
          obtain ⟨rfl, -⟩ := h
          exact Or.inl rfl
        | ok links =>
          simp only [hi, hg, Option.some.injEq, Prod.mk.injEq] at h
          obtain ⟨rfl, -⟩ := h
          refine Or.inr (Or.inl ⟨rfl, h7.2, ?_, ⟨r, links, rfl, hg⟩, rfl⟩)
          intro hnil
          rw [hnil] at h7
          exact absurd h7.1 (by simp)
    · -- Esc in Languages view
      subst h8
      simp only [Option.some.injEq, Prod.mk.injEq] at h
      obtain ⟨rfl, -⟩ := h
      exact Or.inr (Or.inr ⟨rfl, h9, rfl⟩)

/-- Slice indexing panics exactly when the index is out of range. -/
theorem index_eq_none_iff (xs : List String) (i : Int) :
    index xs i = none ↔ ¬ (0 ≤ i ∧ i < xs.length) := by
  unfold index
  split_ifs with h
  · have hlt : i.toNat < xs.length := by omega
    simp [h, List.get?_eq_getElem?, List.getElem?_eq_getElem hlt]
  · simp [h]

/-- The only panic of `Update`: Enter in Search view with non-empty results and a
selection out of range. -/
theorem Update_eq_none_iff (env : Env) (m : Model) (msg : Msg) :
    Update env m msg = none ↔
      msg = .KeyMsg "enter" ∧ m.results ≠ [] ∧ m.viewMode = "search"
        ∧ ¬ (0 ≤ m.selectedResult ∧ m.selectedResult < m.results.length) := by
  rw [← index_eq_none_iff]
  cases msg with
  | other => simp [Update]
  | KeyMsg key =>
    by_cases hk : key = "enter"
    · subst hk
      by_cases hg : m.results.length > 0 ∧ m.viewMode = "search"
      · have hne : m.results ≠ [] := List.length_pos.mp hg.1
        cases hi : index m.results m.selectedResult with
        | none => simp [Update, hg, hi, hne]
        | some r =>
          cases hl : getLanguageLinks env (PathEscape r) m.language <;>
            simp [Update, hg, hi, hl]
      · have hrhs : ¬ (m.results ≠ [] ∧ m.viewMode = "search"
            ∧ index m.results m.selectedResult = none) :=
          fun ⟨hne, hv, _⟩ => hg ⟨List.length_pos.mpr hne, hv⟩
        simp only [Update, hg, true_and]
        simpa using hrhs
    · have hrhs : ¬ (Msg.KeyMsg key = .KeyMsg "enter" ∧ m.results ≠ []
          ∧ m.viewMode = "search" ∧ index m.results m.selectedResult = none) :=
        fun ⟨he, _⟩ => hk (by injection he)
      unfold Update
      simp only [hk, if_false]
      split_ifs <;> simpa using hrhs

/-- Esc directly after a successful Enter gives back the state before the Enter, with
the fetched links kept. -/
theorem Update_enter_esc (env : Env) (m : Model) (r : String) (L : List String)
    (hview : m.viewMode = "search") (hne : m.results ≠ [])
    (hsel : index m.results m.selectedResult = some r)
    (hok : getLanguageLinks env (PathEscape r) m.language = .ok L) :
    ∃ t, Update env m (.KeyMsg "enter") = some (t, .nil)
      ∧ Update env t (.KeyMsg "esc") = some ({ m with languageLinks := L }, .nil) := by
  have hlen : m.results.length > 0 := List.length_pos.mpr hne
  refine ⟨{ m with languageLinks := L, viewMode := "languages" }, ?_, ?_⟩
  · simp [Update, hlen, hview, hsel, hok]
  · simp [Update, hview]

/-! ## Claims -/

set_option maxRecDepth 20000

/-- C1: for a model with non-empty results and a selection in `[0, len(results) - 1]`,
every finite sequence of Up and Down keys fed to `Update` is processed without panic and
leaves the selection in `[0, len(results) - 1]` and the results unchanged; a single Up
yields `max (i - 1) 0` and a single Down yields `min (i + 1) (len(results) - 1)`. -/
theorem C1_navigation_stays_in_range (evs : List (Env × Msg)) (m : Model)
    (_hne : m.results ≠ [])
    (hlo : 0 ≤ m.selectedResult) (hhi : m.selectedResult ≤ (m.results.length : Int) - 1)
    (hkeys : ∀ e ∈ evs, e.2 = Msg.KeyMsg "up" ∨ e.2 = Msg.KeyMsg "down") :
    (∃ m', runEvents evs m = some m' ∧ m'.results = m.results
      ∧ 0 ≤ m'.selectedResult ∧ m'.selectedResult ≤ (m'.results.length : Int) - 1)
    ∧ (∀ env, Update env m (.KeyMsg "up")
        = some ({ m with selectedResult := max (m.selectedResult - 1) 0 }, .nil))
    ∧ (∀ env, Update env m (.KeyMsg "down")
        = some ({ m with
            selectedResult := min (m.selectedResult + 1) ((m.results.length : Int) - 1) },
          .nil)) := by
  refine ⟨?_, fun env => Update_up env m hlo, fun env => Update_down env m hhi⟩
  obtain ⟨m', h1, h2, _, h4, h5⟩ := runEvents_up_down evs m hlo hhi hkeys
  exact ⟨m', h1, h2, h4, by rw [h2]; exact h5⟩

/-- C10: the view mode changes only in two ways. Whenever `Update` returns: if it takes
the view mode from Search to Languages then the message is the Enter key, the results
are non-empty and the language-link fetch succeeded; if it takes it from Languages to
Search then the message is the Esc key; and in every other case the view mode is
unchanged, that is, a changed view mode is one of these two transitions. -/
theorem C10_viewMode_transitions (env : Env) (m : Model) (msg : Msg) (m' : Model)
    (cmd : Cmd) (h : Update env m msg = some (m', cmd)) :
    (m.viewMode = "search" → m'.viewMode = "languages" →
      msg = .KeyMsg "enter" ∧ m.results ≠ [] ∧
      ∃ r links, index m.results m.selectedResult = some r ∧
        getLanguageLinks env (PathEscape r) m.language = .ok links)
    ∧ (m.viewMode = "languages" → m'.viewMode = "search" → msg = .KeyMsg "esc")
    ∧ (m'.viewMode ≠ m.viewMode →
        (m.viewMode = "search" ∧ m'.viewMode = "languages")
        ∨ (m.viewMode = "languages" ∧ m'.viewMode = "search")) := by
  rcases Update_viewMode env m msg m' cmd h with hu | ⟨h1, h2, h3, h4, h5⟩ | ⟨h1, h2, h3⟩
  · refine ⟨fun a b => ?_, fun a b => ?_, fun c => absurd hu c⟩
    · rw [hu, a] at b
      exact absurd b search_ne_languages
    · rw [hu, a] at b
      exact absurd b.symm search_ne_languages
  · refine ⟨fun _ _ => ⟨h1, h3, h4⟩, fun a _ => ?_, fun _ => Or.inl ⟨h2, h5⟩⟩
    rw [h2] at a
    exact absurd a search_ne_languages
  · refine ⟨fun a _ => ?_, fun _ _ => h1, fun _ => Or.inr ⟨h2, h3⟩⟩
    rw [h2] at a
    exact absurd a.symm search_ne_languages

/-- C8: for a successfully decoded search response with `N` pages, the display list
built by `searchWikipedia` has exactly `N` entries in response order; entry `i` is
`title_i ++ " - " ++ description_i` when the description is non-empty and
`title_i ++ " - No description available"` when it is the empty string. -/
theorem C8_search_display_list (env : Env) (query language : String) (limit : Int)
    (pages : List Page) (h : env.search language query limit = .ok pages) :
    ∃ titles, searchWikipedia env query language limit = .ok titles
      ∧ titles.length = pages.length
      ∧ ∀ (i : Nat) (hi : i < pages.length),
          titles[i]? = some
            (if pages[i].Description = "" then pages[i].Title ++ " - No description available"
             else pages[i].Title ++ " - " ++ pages[i].Description) := by
  refine ⟨pages.map pageLine, ?_, by simp, ?_⟩
  · simp [searchWikipedia, h, foldl_append_singleton]
  · intro i hi
    rw [List.getElem?_map, List.getElem?_eq_getElem hi]
    simp only [Option.map_some', pageLine]
    split_ifs
    · have hd : " - " ++ "No description available" = " - No description available" := by
        decide
      rw [String.append_assoc, hd]
    · rfl

/-- C9: for a successfully decoded language-links response, the list built by
`getLanguageLinks` has the length and order of the response; entry `i` is
`name_i ++ ": https://" ++ code_i ++ ".wikipedia.org/wiki/" ++ PathEscape key_i`, where
`PathEscape` is the identity on keys made only of unreserved characters, such as
`"Chat"`. -/
theorem C9_language_link_list (env : Env) (title language : String)
    (result : List LanguageLink) (h : env.links (linksURL title language) = .ok result) :
    (∃ links, getLanguageLinks env title language = .ok links
      ∧ links.length = result.length
      ∧ ∀ (i : Nat) (hi : i < result.length),
          links[i]? = some (result[i].Name ++ ": https://" ++ result[i].Code
            ++ ".wikipedia.org/wiki/" ++ PathEscape result[i].Key))
    ∧ (∀ key : String, (∀ c ∈ key.data, unreserved c) → PathEscape key = key)
    ∧ PathEscape "Chat" = "Chat" := by
  refine ⟨⟨result.map linkLine, ?_, by simp, ?_⟩, PathEscape_unreserved, by decide⟩
  · simp [getLanguageLinks, h, foldl_append_singleton]
  · intro i hi
    rw [List.getElem?_map, List.getElem?_eq_getElem hi]
    rfl

/-- C3: in Search view with non-empty results and an in-range selection (the selected
entry `r` exists), if the language-link fetch triggered by Enter fails with error `e`,
then `Update` returns a state still in Search view whose results are the one-element
list holding `"Error: " ++ e`, with `languageLinks`, `query` and `language` unchanged,
and the command is not Quit. -/
theorem C3_failed_fetch_stays_in_search (env : Env) (m : Model) (r e : String)
    (hview : m.viewMode = "search") (hne : m.results ≠ [])
    (hsel : index m.results m.selectedResult = some r)
    (hfail : getLanguageLinks env (PathEscape r) m.language = .err e) :
    ∃ m', Update env m (.KeyMsg "enter") = some (m', .nil)
      ∧ m'.viewMode = "search"
      ∧ m'.results = ["Error: " ++ e] ∧ m'.results.length = 1
      ∧ m'.languageLinks = m.languageLinks ∧ m'.query = m.query
      ∧ m'.language = m.language := by
  have hlen : m.results.length > 0 := List.length_pos.mpr hne
  refine ⟨{ m with results := ["Error: " ++ e] }, ?_, hview, rfl, rfl, rfl, rfl, rfl⟩
  simp [Update, hlen, hview, hsel, hfail]

/-- C6: in Search view with non-empty results and an in-range selection (the selected
entry `r` exists), if the language-link fetch triggered by Enter succeeds with the link
strings `L`, then `Update` returns a state in Languages view with `languageLinks = L`
and `results`, `selectedResult` unchanged, and `View` of that state is the header, the
label line `Available in other languages:`, every element of `L` in order on a line of
its own, and the help footer; when the links response is the single record
`(fr, French, Chat)` the view shows `French: https://fr.wikipedia.org/wiki/Chat`. -/
theorem C6_successful_fetch_shows_links (env : Env) (m : Model) (r : String)
    (L : List String)
    (hview : m.viewMode = "search") (hne : m.results ≠ [])
    (hsel : index m.results m.selectedResult = some r)
    (hok : getLanguageLinks env (PathEscape r) m.language = .ok L) :
    ∃ m', Update env m (.KeyMsg "enter") = some (m', .nil)
      ∧ m'.viewMode = "languages" ∧ m'.languageLinks = L
      ∧ m'.results = m.results ∧ m'.selectedResult = m.selectedResult
      ∧ View m' = "Wikipedia Search (" ++ m.language ++ "): " ++ m.query ++ "\n\n"
          ++ "Available in other languages:\n\n"
          ++ String.join (L.map (fun link => "• " ++ link ++ "\n"))
          ++ "\nEsc: back to results • q: quit"
      ∧ (env.links (linksURL (PathEscape r) m.language) = .ok [⟨"fr", "French", "Chat"⟩] →
          View m' = "Wikipedia Search (" ++ m.language ++ "): " ++ m.query ++ "\n\n"
            ++ "Available in other languages:\n\n"
            ++ "• French: https://fr.wikipedia.org/wiki/Chat\n"
            ++ "\nEsc: back to results • q: quit") := by
  have hlen : m.results.length > 0 := List.length_pos.mpr hne
  have hV : View { m with languageLinks := L, viewMode := "languages" }
      = "Wikipedia Search (" ++ m.language ++ "): " ++ m.query ++ "\n\n"
          ++ "Available in other languages:\n\n"
          ++ String.join (L.map (fun link => "• " ++ link ++ "\n"))
          ++ "\nEsc: back to results • q: quit" := by
    have hmode : ¬ ("languages" : String) = "search" := by decide
    simp only [View, hmode, if_false, foldl_append_text]
  refine ⟨{ m with languageLinks := L, viewMode := "languages" }, ?_, rfl, rfl, rfl, rfl,
    hV, ?_⟩
  · simp [Update, hlen, hview, hsel, hok]
  · intro hresp
    have hL : L = ["French: https://fr.wikipedia.org/wiki/Chat"] := by
      have h2 : getLanguageLinks env (PathEscape r) m.language
          = .ok ["French: https://fr.wikipedia.org/wiki/Chat"] := by
        simp only [getLanguageLinks, hresp]
        decide
      rw [hok] at h2
      injection h2
    rw [hV, hL]
    simp [String.join]

/-- C2: a run from the start state that violates the invariant. After Down and an
Enter whose fetch fails, the results are the one-element error list while
`selectedResult` is still `1`. -/
theorem C2_selection_out_of_range_after_failed_fetch :
    ∃ m', runEvents [(envDown, .KeyMsg "down"), (envDown, .KeyMsg "enter")] catModel = some m'
      ∧ m'.results ≠ [] ∧ m'.results.length = 1 ∧ m'.selectedResult = 1
      ∧ ¬ (m'.selectedResult < (m'.results.length : Int)) :=
  ⟨_, rfl, by decide, by decide, by decide, by decide⟩

/-- C4: a run from the start state on which `Update` panics. After Down and an Enter
whose fetch fails, a further Enter reads `results[1]` of a one-element list. -/
theorem C4_enter_after_failed_fetch_panics :
    runEvents [(envDown, .KeyMsg "down"), (envDown, .KeyMsg "enter"),
      (envFrench, .KeyMsg "enter")] catModel = none := by
  decide

/-- C5: Enter, then Down in Languages view, then Esc does not restore the selection:
the state is back in Search view with the same results, but `selectedResult` is `1`
where it was `0` before the Enter. -/
theorem C5_down_in_languages_view_moves_selection :
    catModel.viewMode = "search" ∧ catModel.selectedResult = 0
    ∧ ∃ t, runEvents [(envFrench, .KeyMsg "enter"), (envFrench, .KeyMsg "down")] catModel
          = some t
        ∧ t.viewMode = "languages"
        ∧ ∃ t', Update envFrench t (.KeyMsg "esc") = some (t', .nil)
            ∧ t'.viewMode = "search" ∧ t'.results = catModel.results
            ∧ t'.selectedResult = 1 :=
  ⟨by decide, by decide, _, rfl, by decide, _, rfl, by decide, by decide, by decide⟩

/-- C7: the request made on Enter. The results are the display list of `catPages`, and
Enter on the first entry requests the page segment
`Cat%2520-%2520Small%2520domesticated%2520carnivorous%2520mammal`, the twice-escaped
display string with separator and description, where the once-escaped title is `Cat`. -/
theorem C7_enter_requests_escaped_display_line :
    searchWikipedia envFrench "Cat" "en" 3 = .ok catResults
    ∧ Update envDown catModel (.KeyMsg "enter")
        = some ({ catModel with results := ["Error: " ++ transportError
            ("https://api.wikimedia.org/core/v1/wikipedia/en/page/"
              ++ "Cat%2520-%2520Small%2520domesticated%2520carnivorous%2520mammal"
              ++ "/links/language")] }, .nil)
    ∧ linksURL "Cat" "en"
        = "https://api.wikimedia.org/core/v1/wikipedia/en/page/" ++ "Cat" ++ "/links/language" :=
  ⟨rfl, rfl, rfl⟩

/-! ## The claims with a hypothesis, applied to concrete inputs -/

/-- C1 at the start state for `Cat` and the keys Down, Down, Up. -/
theorem C1_navigation_stays_in_range_witness :
    catModel.results ≠ []
    ∧ 0 ≤ catModel.selectedResult
    ∧ catModel.selectedResult ≤ (catModel.results.length : Int) - 1
    ∧ ((∃ m', runEvents [(envDown, .KeyMsg "down"), (envFrench, .KeyMsg "down"),
            (envDown, .KeyMsg "up")] catModel = some m'
          ∧ m'.results = catModel.results
          ∧ 0 ≤ m'.selectedResult ∧ m'.selectedResult ≤ (m'.results.length : Int) - 1)
        ∧ (∀ env, Update env catModel (.KeyMsg "up")
            = some ({ catModel with
                selectedResult := max (catModel.selectedResult - 1) 0 }, .nil))
        ∧ (∀ env, Update env catModel (.KeyMsg "down")
            = some ({ catModel with
                selectedResult :=
                  min (catModel.selectedResult + 1) ((catModel.results.length : Int) - 1) },
              .nil))) :=
  ⟨by decide, by decide, by decide,
    C1_navigation_stays_in_range
      [(envDown, .KeyMsg "down"), (envFrench, .KeyMsg "down"), (envDown, .KeyMsg "up")]
      catModel (by decide) (by decide) (by decide) (by decide)⟩

/-- C3 at the start state for `Cat` on a network that is down. -/
theorem C3_failed_fetch_stays_in_search_witness :
    catModel.viewMode = "search" ∧ catModel.results ≠ []
    ∧ index catModel.results catModel.selectedResult
        = some "Cat - Small domesticated carnivorous mammal"
    ∧ getLanguageLinks envDown (PathEscape "Cat - Small domesticated carnivorous mammal")
          catModel.language
        = .err (transportError
            (linksURL (PathEscape "Cat - Small domesticated carnivorous mammal") "en"))
    ∧ ∃ m', Update envDown catModel (.KeyMsg "enter") = some (m', .nil)
        ∧ m'.viewMode = "search"
        ∧ m'.results = ["Error: " ++ transportError
            (linksURL (PathEscape "Cat - Small domesticated carnivorous mammal") "en")]
        ∧ m'.results.length = 1
        ∧ m'.languageLinks = catModel.languageLinks ∧ m'.query = catModel.query
        ∧ m'.language = catModel.language :=
  ⟨rfl, by decide, rfl, rfl,
    C3_failed_fetch_stays_in_search envDown catModel
      "Cat - Small domesticated carnivorous mammal"
      (transportError (linksURL (PathEscape "Cat - Small domesticated carnivorous mammal") "en"))
      rfl (by decide) rfl rfl⟩

/-- C6 at the start state for `Cat` on a network answering the French link record. -/
theorem C6_successful_fetch_shows_links_witness :
    catModel.viewMode = "search" ∧ catModel.results ≠ []
    ∧ index catModel.results catModel.selectedResult
        = some "Cat - Small domesticated carnivorous mammal"
    ∧ getLanguageLinks envFrench (PathEscape "Cat - Small domesticated carnivorous mammal")
          catModel.language
        = .ok ["French: https://fr.wikipedia.org/wiki/Chat"]
    ∧ ∃ m', Update envFrench catModel (.KeyMsg "enter") = some (m', .nil)
        ∧ m'.viewMode = "languages"
        ∧ m'.languageLinks = ["French: https://fr.wikipedia.org/wiki/Chat"]
        ∧ m'.results = catModel.results ∧ m'.selectedResult = catModel.selectedResult
        ∧ View m' = "Wikipedia Search (" ++ catModel.language ++ "): " ++ catModel.query
            ++ "\n\n"
            ++ "Available in other languages:\n\n"
            ++ String.join (["French: https://fr.wikipedia.org/wiki/Chat"].map
                (fun link => "• " ++ link ++ "\n"))
            ++ "\nEsc: back to results • q: quit"
        ∧ (envFrench.links
              (linksURL (PathEscape "Cat - Small domesticated carnivorous mammal")
                catModel.language)
            = .ok [⟨"fr", "French", "Chat"⟩] →
            View m' = "Wikipedia Search (" ++ catModel.language ++ "): " ++ catModel.query
              ++ "\n\n"
              ++ "Available in other languages:\n\n"
              ++ "• French: https://fr.wikipedia.org/wiki/Chat\n"
              ++ "\nEsc: back to results • q: quit") :=
  ⟨rfl, by decide, rfl, rfl,
    C6_successful_fetch_shows_links envFrench catModel
      "Cat - Small domesticated carnivorous mammal"
      ["French: https://fr.wikipedia.org/wiki/Chat"] rfl (by decide) rfl rfl⟩

/-- C8 for the search `Cat` on a network answering `catPages`. -/
theorem C8_search_display_list_witness :
    envFrench.search "en" "Cat" 3 = .ok catPages
    ∧ ∃ titles, searchWikipedia envFrench "Cat" "en" 3 = .ok titles
        ∧ titles.length = catPages.length
        ∧ ∀ (i : Nat) (hi : i < catPages.length),
            titles[i]? = some
              (if catPages[i].Description = ""
               then catPages[i].Title ++ " - No description available"
               else catPages[i].Title ++ " - " ++ catPages[i].Description) :=
  ⟨rfl, C8_search_display_list envFrench "Cat" "en" 3 catPages rfl⟩

/-- C9 for the page `Cat` on a network answering the French link record. -/
theorem C9_language_link_list_witness :
    envFrench.links (linksURL "Cat" "en") = .ok [⟨"fr", "French", "Chat"⟩]
    ∧ (∃ links, getLanguageLinks envFrench "Cat" "en" = .ok links
        ∧ links.length = [(⟨"fr", "French", "Chat"⟩ : LanguageLink)].length
        ∧ ∀ (i : Nat) (hi : i < [(⟨"fr", "French", "Chat"⟩ : LanguageLink)].length),
            links[i]? = some ([(⟨"fr", "French", "Chat"⟩ : LanguageLink)][i].Name
              ++ ": https://" ++ [(⟨"fr", "French", "Chat"⟩ : LanguageLink)][i].Code
              ++ ".wikipedia.org/wiki/"
              ++ PathEscape [(⟨"fr", "French", "Chat"⟩ : LanguageLink)][i].Key))
    ∧ (∀ key : String, (∀ c ∈ key.data, unreserved c) → PathEscape key = key)
    ∧ PathEscape "Chat" = "Chat" :=
  ⟨rfl, C9_language_link_list envFrench "Cat" "en" [⟨"fr", "French", "Chat"⟩] rfl⟩

/-- C10 at the start state for `Cat`, the Enter key and a successful fetch. -/
theorem C10_viewMode_transitions_witness :
    Update envFrench catModel (.KeyMsg "enter")
        = some ({ catModel with
            languageLinks := ["French: https://fr.wikipedia.org/wiki/Chat"],
            viewMode := "languages" }, .nil)
    ∧ ((catModel.viewMode = "search" → "languages" = "languages" →
          Msg.KeyMsg "enter" = .KeyMsg "enter" ∧ catModel.results ≠ [] ∧
          ∃ r links, index catModel.results catModel.selectedResult = some r ∧
            getLanguageLinks envFrench (PathEscape r) catModel.language = .ok links)
      ∧ (catModel.viewMode = "languages" → "languages" = "search" →
          Msg.KeyMsg "enter" = .KeyMsg "esc")
      ∧ ("languages" ≠ catModel.viewMode →
          (catModel.viewMode = "search" ∧ "languages" = "languages")
          ∨ (catModel.viewMode = "languages" ∧ "languages" = "search"))) :=
  ⟨rfl,
    C10_viewMode_transitions envFrench catModel (.KeyMsg "enter")
      { catModel with
        languageLinks := ["French: https://fr.wikipedia.org/wiki/Chat"],
        viewMode := "languages" } .nil rfl⟩

end CliWiki
